import Mathlib

/-!
Verification of the boolean-search core of `hw_boolean_search.py`: a shallow
embedding of `tokenize`, `parse_query` (shunting-yard over an operand stack and
an operator stack), `evaluate_tree`, and the `Index` access methods, together
with theorems settling the specification's claims about them.

Python runtime errors (IndexError from popping an empty stack, KeyError from a
missing precedence entry) are modelled by `Option`: a function returns `none`
exactly when the Python code raises.  Document identifiers are opaque; they are
modelled by `Nat`.  Python's `str.isalnum` is modelled on the ASCII alphabet
(letters and digits), which covers every query considered here.
-/

namespace BoolSearch

/-- Node of the Python class `BooleanNode`: a `value` string together with a
left and a right child, each possibly absent.  `null` stands for Python `None`
(the default for `left` and `right`). -/
inductive BooleanNode where
  | null : BooleanNode
  | mk (value : String) (left : BooleanNode) (right : BooleanNode)
  deriving DecidableEq

/-- Characters split off as single-character tokens by `tokenize`
(the Python membership test `char in '() |!'`). -/
def isSpecialChar (c : Char) : Bool :=
  c = '(' || c = ')' || c = ' ' || c = '|' || c = '!'

/-- Model of Python `str.isalnum` (restricted to ASCII): nonempty and every
character a letter or a digit. -/
def pyIsAlnum (s : String) : Bool :=
  !s.isEmpty && s.data.all (fun c => c.isAlpha || c.isDigit)

/-- The operand test of `parse` and the term test of `evaluate_tree`:
`token.isalnum() or "_" in token`. -/
def isTermToken (s : String) : Bool :=
  pyIsAlnum s || s.data.contains '_'

/-- Inner loop of `tokenize`: fold over the characters, accumulating the
current (possibly empty) term token. -/
def tokenizeAux : List Char → String → List String
  | [], token => if token.isEmpty then [] else [token]
  | c :: cs, token =>
    if isSpecialChar c then
      (if token.isEmpty then [] else [token]) ++ String.singleton c :: tokenizeAux cs ""
    else
      tokenizeAux cs (token.push c)

/-- Python `tokenize`: any maximal run of non-special characters is one token;
each special character is its own single-character token. -/
def tokenize (query : String) : List String :=
  tokenizeAux query.data ""

/-- Precedence table `{'!': 3, ' ': 2, '|': 1}`; `none` models a KeyError on
any other key. -/
def precedence (op : String) : Option Nat :=
  if op = "!" then some 3
  else if op = " " then some 2
  else if op = "|" then some 1
  else none

/-- Python `apply_operator` acting on the operand stack once the operator has
been popped: `'!'` wraps one operand as the left child of a NOT node, any other
operator pops `right` then `left` into a binary node.  `none` models the
IndexError raised when the stack has too few operands.  The stack's head is the
Python list's last element. -/
def apply_operator (op : String) : List BooleanNode → Option (List BooleanNode)
  | stack =>
    if op = "!" then
      match stack with
      | operand :: rest => some (.mk "!" operand .null :: rest)
      | [] => none
    else
      match stack with
      | right :: left :: rest => some (.mk op left right :: rest)
      | _ => none

/-- Parser state: operand stack and operator stack (heads are the tops). -/
structure PState where
  stack : List BooleanNode
  operators : List String
  deriving DecidableEq

/-- The `')'` branch of `parse`: pop and apply operators until `'('`, then
discard the `'('`; `none` models IndexError when no `'('` is present
(the unguarded `operators.pop()`) or when `apply_operator` fails. -/
def popUntilParen (stack : List BooleanNode) : List String → Option PState
  | [] => none
  | op :: rest =>
    if op = "(" then some ⟨stack, rest⟩
    else
      match apply_operator op stack with
      | none => none
      | some stack' => popUntilParen stack' rest

/-- The while-loop of the operator branch of `parse`: while the top of the
operator stack is not `'('` and its precedence is at least the incoming
token's, pop and apply; `none` models KeyError on either precedence lookup or
an `apply_operator` failure. -/
def popWhileGE (token : String) (stack : List BooleanNode) : List String → Option PState
  | [] => some ⟨stack, []⟩
  | op :: rest =>
    if op = "(" then some ⟨stack, op :: rest⟩
    else
      match precedence op, precedence token with
      | some p1, some p2 =>
        if p2 ≤ p1 then
          match apply_operator op stack with
          | none => none
          | some stack' => popWhileGE token stack' rest
        else some ⟨stack, op :: rest⟩
      | _, _ => none

/-- One iteration of the token loop of `parse`: operand, `'('`, `')'`, or
operator. -/
def processToken (st : PState) (token : String) : Option PState :=
  if isTermToken token then
    some ⟨.mk token .null .null :: st.stack, st.operators⟩
  else if token = "(" then
    some ⟨st.stack, "(" :: st.operators⟩
  else if token = ")" then
    popUntilParen st.stack st.operators
  else
    match popWhileGE token st.stack st.operators with
    | none => none
    | some st' => some ⟨st'.stack, token :: st'.operators⟩

/-- The final `while operators: apply_operator()` of `parse`. -/
def applyAll (stack : List BooleanNode) : List String → Option (List BooleanNode)
  | [] => some stack
  | op :: rest =>
    match apply_operator op stack with
    | none => none
    | some stack' => applyAll stack' rest

/-- Python `parse(tokens)`: fold the tokens through the stacks, apply the
leftover operators, then `return stack[0]` — the bottom of the operand stack,
i.e. the last element of our head-is-top list; `none` models IndexError when
the stack is empty. -/
def parse (tokens : List String) : Option BooleanNode := do
  let st ← tokens.foldlM processToken ⟨[], []⟩
  let finalStack ← applyAll st.stack st.operators
  finalStack.getLast?

/-- Python `parse_query(query)`: tokenize, then parse. -/
def parse_query (query : String) : Option BooleanNode :=
  parse (tokenize query)

/-- The inverted index: an association of terms to posting sets (document-id
sets), the model of `Index.inverted_index`. -/
abbrev Index : Type := List (String × Finset ℕ)

/-- Python `Index.get(key, default)` with default `set()` as used by
`evaluate_tree`: the posting set of `key`, or the empty set when absent. -/
def Index.get (I : Index) (key : String) : Finset ℕ :=
  match List.find? (fun p => p.1 = key) I with
  | some p => p.2
  | none => ∅

/-- Python `Index.values()`: the posting sets. -/
def Index.values (I : Index) : List (Finset ℕ) :=
  List.map Prod.snd I

/-- The set `all_docs` computed inside the NOT branch of `evaluate_tree`:
the union of every posting set of the index. -/
def all_docs (I : Index) : Finset ℕ :=
  (Index.values I).foldr (fun s acc => s ∪ acc) ∅

/-- Python `QueryTree.evaluate_tree(node, document_index)`: `None` node gives
the empty set; a term-valued node is looked up; `'!'` complements the left
child against `all_docs`; `' '` intersects and `'|'` unites the children; any
other value falls through every branch and returns Python `None`, modelled as
`none` (as is the TypeError raised when a child's `None` result meets a set
operator). -/
def evaluate_tree : BooleanNode → Index → Option (Finset ℕ)
  | .null, _ => some ∅
  | .mk v l r, I =>
    if isTermToken v then some (Index.get I v)
    else if v = "!" then
      match evaluate_tree l I with
      | some s => some (all_docs I \ s)
      | none => none
    else if v = " " then
      match evaluate_tree l I, evaluate_tree r I with
      | some a, some b => some (a ∩ b)
      | _, _ => none
    else if v = "|" then
      match evaluate_tree l I, evaluate_tree r I with
      | some a, some b => some (a ∪ b)
      | _, _ => none
    else none

/-- Python `QueryTree.search` composed with construction: parse the query and
evaluate the tree against the index; `none` when either step raises or when
evaluation falls through to `None`. -/
def search (query : String) (I : Index) : Option (Finset ℕ) :=
  match parse_query query with
  | none => none
  | some t => evaluate_tree t I

/-- A node value accepted by some branch of `evaluate_tree`: a term, `'!'`,
`' '`, or `'|'`. -/
def goodValue (v : String) : Bool :=
  isTermToken v || v = "!" || v = " " || v = "|"

/-- Trees whose every node carries an evaluable value (Term, NOT, AND or OR),
the shape every tree built from a well-formed query has; `null` is allowed. -/
def wellTagged : BooleanNode → Bool
  | .null => true
  | .mk v l r => goodValue v && wellTagged l && wellTagged r

lemma all_docs_cons (p : String × Finset ℕ) (t : Index) :
    all_docs (p :: t) = p.2 ∪ all_docs t := rfl

lemma posting_subset_all_docs (I : Index) (p : String × Finset ℕ) (hp : p ∈ I) :
    p.2 ⊆ all_docs I := by
  induction I with
  | nil => cases hp
  | cons q t ih =>
    rw [all_docs_cons]
    rcases List.mem_cons.mp hp with hq | hmem
    · rw [hq]; exact Finset.subset_union_left
    · exact (ih hmem).trans Finset.subset_union_right

lemma get_subset_all_docs (I : Index) (v : String) : Index.get I v ⊆ all_docs I := by
  unfold Index.get
  cases hf : List.find? (fun p => p.1 = v) I with
  | none => exact Finset.empty_subset _
  | some p => exact posting_subset_all_docs I p (List.mem_of_find?_eq_some hf)

lemma evaluate_tree_term (v : String) (l r : BooleanNode) (I : Index)
    (h : isTermToken v = true) :
    evaluate_tree (.mk v l r) I = some (Index.get I v) := by
  simp [evaluate_tree, h]

lemma evaluate_tree_not (l r : BooleanNode) (I : Index) :
    evaluate_tree (.mk "!" l r) I =
      match evaluate_tree l I with
      | some s => some (all_docs I \ s)
      | none => none := rfl

lemma evaluate_tree_and (l r : BooleanNode) (I : Index) :
    evaluate_tree (.mk " " l r) I =
      match evaluate_tree l I, evaluate_tree r I with
      | some a, some b => some (a ∩ b)
      | _, _ => none := rfl

lemma evaluate_tree_or (l r : BooleanNode) (I : Index) :
    evaluate_tree (.mk "|" l r) I =
      match evaluate_tree l I, evaluate_tree r I with
      | some a, some b => some (a ∪ b)
      | _, _ => none := rfl

lemma mk_isEmpty_cons (c : Char) (cs : List Char) :
    (⟨c :: cs⟩ : String).isEmpty = false := by
  cases he : (⟨c :: cs⟩ : String).isEmpty with
  | false => rfl
  | true =>
    have h := (String.isEmpty_iff _).mp he
    rw [String.ext_iff] at h
    simp at h

lemma tokenizeAux_run (cs : List Char) (acc : List Char)
    (h : ∀ c ∈ cs, isSpecialChar c = false) :
    tokenizeAux cs ⟨acc⟩ =
      if (acc ++ cs).isEmpty then [] else [⟨acc ++ cs⟩] := by
  induction cs generalizing acc with
  | nil =>
    simp only [tokenizeAux, List.append_nil]
    cases acc with
    | nil => rfl
    | cons c t => rw [mk_isEmpty_cons]; rfl
  | cons c cs ih =>
    have hc : isSpecialChar c = false := h c (by simp)
    have hrest : ∀ x ∈ cs, isSpecialChar x = false := fun x hx => h x (by simp [hx])
    simp only [tokenizeAux, hc, Bool.false_eq_true, if_false]
    rw [show String.push ⟨acc⟩ c = ⟨acc ++ [c]⟩ from rfl, ih (acc ++ [c]) hrest,
      List.append_assoc]
    rfl

/-- Tokenization of a query that is one maximal run of non-special
characters: the whole query is the single token. -/
lemma tokenize_run (t : String) (h1 : t.data ≠ [])
    (h2 : ∀ c ∈ t.data, isSpecialChar c = false) :
    tokenize t = [t] := by
  cases t with
  | mk l =>
    show tokenizeAux l ⟨[]⟩ = [⟨l⟩]
    rw [tokenizeAux_run l [] h2]
    cases l with
    | nil => exact absurd rfl h1
    | cons c cs => rfl

/-- Parsing a single operand token pushes one Term leaf, which the final
`stack[0]` returns. -/
lemma parse_single_term (t : String) (h : isTermToken t = true) :
    parse [t] = some (.mk t .null .null) := by
  simp [parse, List.foldlM, processToken, h, applyAll, List.getLast?]

/-- Parsing a single non-operand, non-parenthesis token pushes it as an
operator; the end-of-input loop then applies it to an empty operand stack and
raises (modelled `none`). -/
lemma parse_single_nonterm (t : String) (hterm : isTermToken t = false)
    (hl : t ≠ "(") (hr : t ≠ ")") :
    parse [t] = none := by
  simp [parse, List.foldlM, processToken, hterm, hl, hr, popWhileGE, applyAll,
    apply_operator, ite_self]

/-- The shared example index with one term `"a"` whose posting set is
`{1, 2}`. -/
def wI : Index := [("a", {1, 2})]

/-- The shared example index with disjoint posting sets for `"a"` and
`"b"`. -/
def wI2 : Index := [("a", {1}), ("b", {2})]

/-- Claim C1: for every index, `search "a b|c"` evaluates to
`(postings a ∩ postings b) ∪ postings c` — the parser groups the implicit AND
before `'|'`, following the precedence order NOT (3) > AND (2) > OR (1). -/
theorem claim_c1 (I : Index) :
    search "a b|c" I =
      some ((Index.get I "a" ∩ Index.get I "b") ∪ Index.get I "c") := rfl

/-- Claim C2: a node tagged `'!'` evaluates to the union of all posting sets
of the index minus the evaluation of its child, and on an index with no
documents it evaluates to the empty set rather than failing. -/
theorem claim_c2 (I : Index) (l r : BooleanNode) (s : Finset ℕ)
    (h : evaluate_tree l I = some s) :
    evaluate_tree (.mk "!" l r) I = some (all_docs I \ s) ∧
      (I = [] → evaluate_tree (.mk "!" l r) I = some ∅) := by
  constructor
  · rw [evaluate_tree_not, h]
  · intro hI
    subst hI
    rw [evaluate_tree_not, h]
    exact congrArg some (Finset.empty_sdiff s)

/-- Witness for C2 at the index `wI` and the child leaf `"a"`. -/
theorem claim_c2_witness :
    evaluate_tree (.mk "a" .null .null) wI = some {1, 2} ∧
      (evaluate_tree (.mk "!" (.mk "a" .null .null) .null) wI =
          some (all_docs wI \ {1, 2}) ∧
        (wI = [] →
          evaluate_tree (.mk "!" (.mk "a" .null .null) .null) wI = some ∅)) :=
  ⟨by decide, claim_c2 wI (.mk "a" .null .null) .null {1, 2} (by decide)⟩

/-- Claim C3 (code bug): the claim says `parse_query "!!a"` yields two nested
NOT nodes over the leaf `a`; instead the second `'!'` (precedence 3 ≥ 3) pops
and applies the pending `'!'` while the operand stack is still empty, so the
parse raises IndexError, modelled as `none`. -/
theorem claim_c3_parse_crash : parse_query "!!a" = none := rfl

/-- Claim C4 (code bug): the claim says runs of whitespace collapse to one
implicit AND and that leading or trailing whitespace is harmless; instead each
space is its own AND token, so `"a  b"` and `" a b "` both raise IndexError
(an AND is applied with fewer than two operands), modelled as `none`. -/
theorem claim_c4_whitespace_crash :
    parse_query "a  b" = none ∧ parse_query " a b " = none := ⟨rfl, rfl⟩

/-- Counterexample for C5: the maximal run `"a-b"` (one token) is neither
alphanumeric nor contains an underscore, so the parser treats it as an
operator and fails (KeyError on the precedence table / IndexError), instead of
building a Term leaf. -/
theorem claim_c5_counterexample : parse_query "a-b" = none := rfl

/-- Claim C5 as amended: every maximal run of characters outside
`{'(', ')', ' ', '|', '!'}` is one token, but parse builds a Term leaf holding
exactly that string only when the run is alphanumeric or contains an
underscore (the leaf then evaluates by index lookup); any other run is pushed
as an operator token rather than a term — standing alone it makes the parse
fail, while in a larger query it can even be applied as a spurious binary
operator node, as in `"(a)(b)c-d"`, which parses to a root valued `"c-d"`. -/
theorem claim_c5_amended (I : Index) (t : String) (h1 : t.data ≠ [])
    (h2 : ∀ c ∈ t.data, isSpecialChar c = false) :
    tokenize t = [t] ∧
      (isTermToken t = true →
        parse_query t = some (.mk t .null .null) ∧
        evaluate_tree (.mk t .null .null) I = some (Index.get I t)) ∧
      (isTermToken t = false → parse_query t = none) ∧
      parse_query "(a)(b)c-d" =
        some (.mk "c-d" (.mk "a" .null .null) (.mk "b" .null .null)) := by
  have htok := tokenize_run t h1 h2
  refine ⟨htok, fun ht => ⟨?_, evaluate_tree_term t .null .null I ht⟩,
    fun ht => ?_, rfl⟩
  · unfold parse_query
    rw [htok]
    exact parse_single_term t ht
  · have hl : t ≠ "(" := by
      intro he
      subst he
      exact absurd (h2 '(' (by decide)) (by decide)
    have hr : t ≠ ")" := by
      intro he
      subst he
      exact absurd (h2 ')' (by decide)) (by decide)
    unfold parse_query
    rw [htok]
    exact parse_single_nonterm t ht hl hr

/-- Witness for the amended C5 at the underscore run `"a_b"` and the index
`wI`. -/
theorem claim_c5_amended_witness :
    ("a_b" : String).data ≠ [] ∧
      (∀ c ∈ ("a_b" : String).data, isSpecialChar c = false) ∧
      (tokenize "a_b" = ["a_b"] ∧
        (isTermToken "a_b" = true →
          parse_query "a_b" = some (.mk "a_b" .null .null) ∧
          evaluate_tree (.mk "a_b" .null .null) wI = some (Index.get wI "a_b")) ∧
        (isTermToken "a_b" = false → parse_query "a_b" = none) ∧
        parse_query "(a)(b)c-d" =
          some (.mk "c-d" (.mk "a" .null .null) (.mk "b" .null .null))) :=
  ⟨by decide, by decide, claim_c5_amended wI "a_b" (by decide) (by decide)⟩

/-- Claim C6 (code bug): the claim says every malformed query makes the parser
fail with a `QuerySyntaxError` naming the query id; no such exception exists
in the code — the unbalanced query `"a(b"` returns normally with a tree rooted
at `'('`, and the trailing-operator query `"a|"` raises a bare IndexError
(modelled as `none`). -/
theorem claim_c6_no_syntax_error :
    parse_query "a(b" =
        some (.mk "(" (.mk "a" .null .null) (.mk "b" .null .null)) ∧
      parse_query "a|" = none := ⟨rfl, rfl⟩

/-- Counterexample for C7: on the index `wI2`, `search "!(a b)"` returns a
set while `search "!a | !b"` crashes — the space before `'|'` is an AND token
that is applied with a single operand (IndexError, modelled as `none`), so the
claimed equality fails for the exact query strings it quotes. -/
theorem claim_c7_counterexample :
    search "!(a b)" wI2 ≠ search "!a | !b" wI2 := by decide

/-- Claim C7 as amended: De Morgan's laws hold for the spellings the parser
accepts — `search "!(a b)" = search "!a|!b"` and
`search "!(a|b)" = search "!a !b"` on every index. -/
theorem claim_c7_amended (I : Index) :
    search "!(a b)" I = search "!a|!b" I ∧
      search "!(a|b)" I = search "!a !b" I := by
  constructor
  · show some (all_docs I \ (Index.get I "a" ∩ Index.get I "b")) =
      some ((all_docs I \ Index.get I "a") ∪ (all_docs I \ Index.get I "b"))
    refine congrArg some ?_
    ext x
    simp only [Finset.mem_sdiff, Finset.mem_inter, Finset.mem_union]
    tauto
  · show some (all_docs I \ (Index.get I "a" ∪ Index.get I "b")) =
      some ((all_docs I \ Index.get I "a") ∩ (all_docs I \ Index.get I "b"))
    refine congrArg some ?_
    ext x
    simp only [Finset.mem_sdiff, Finset.mem_inter, Finset.mem_union]
    tauto

/-- Claim C8: a term absent from the index evaluates to the empty set and is
never an error, and on the index `{"a" ↦ {1, 2}}` the query
`"a missingterm"` evaluates to the empty set. -/
theorem claim_c8 (I : Index) (t : String) (h1 : isTermToken t = true)
    (h2 : List.find? (fun p => p.1 = t) I = none) :
    evaluate_tree (.mk t .null .null) I = some ∅ ∧
      search "a missingterm" wI = some ∅ := by
  constructor
  · have hget : Index.get I t = ∅ := by unfold Index.get; rw [h2]
    rw [evaluate_tree_term t .null .null I h1, hget]
  · decide

/-- Witness for C8 at the out-of-vocabulary term `"missingterm"` and the
index `wI`. -/
theorem claim_c8_witness :
    isTermToken "missingterm" = true ∧
      List.find? (fun p => p.1 = "missingterm") wI = none ∧
      (evaluate_tree (.mk "missingterm" .null .null) wI = some ∅ ∧
        search "a missingterm" wI = some ∅) :=
  ⟨by decide, by decide, claim_c8 wI "missingterm" (by decide) (by decide)⟩

/-- Claim C9: on every index, a tree whose every node is a Term leaf, a NOT
node, an AND node or an OR node (the `null` tree included) evaluates to a set
that is a subset of the union of all posting sets of the index. -/
theorem claim_c9 (I : Index) (t : BooleanNode) (h : wellTagged t = true) :
    ∃ s, evaluate_tree t I = some s ∧ s ⊆ all_docs I := by
  induction t with
  | null => exact ⟨∅, rfl, Finset.empty_subset _⟩
  | mk v l r ihl ihr =>
    rw [show wellTagged (.mk v l r) =
        ((goodValue v && wellTagged l) && wellTagged r) from rfl,
      Bool.and_eq_true, Bool.and_eq_true] at h
    obtain ⟨⟨hv, hl⟩, hr⟩ := h
    have hv' : isTermToken v = true ∨ v = "!" ∨ v = " " ∨ v = "|" := by
      have := hv
      simp only [goodValue, Bool.or_eq_true, decide_eq_true_eq] at this
      tauto
    rcases hv' with ht | hbang | hsp | hbar
    · exact ⟨Index.get I v, evaluate_tree_term v l r I ht,
        get_subset_all_docs I v⟩
    · subst hbang
      obtain ⟨s, hs, hsub⟩ := ihl hl
      refine ⟨all_docs I \ s, ?_, Finset.sdiff_subset⟩
      rw [evaluate_tree_not, hs]
    · subst hsp
      obtain ⟨sl, hsl, hsubl⟩ := ihl hl
      obtain ⟨sr, hsr, hsubr⟩ := ihr hr
      refine ⟨sl ∩ sr, ?_, Finset.inter_subset_left.trans hsubl⟩
      rw [evaluate_tree_and, hsl, hsr]
    · subst hbar
      obtain ⟨sl, hsl, hsubl⟩ := ihl hl
      obtain ⟨sr, hsr, hsubr⟩ := ihr hr
      refine ⟨sl ∪ sr, ?_, Finset.union_subset hsubl hsubr⟩
      rw [evaluate_tree_or, hsl, hsr]

/-- Witness for C9 at the tree `NOT (Term "a")` and the index `wI2`. -/
theorem claim_c9_witness :
    wellTagged (.mk "!" (.mk "a" .null .null) .null) = true ∧
      ∃ s, evaluate_tree (.mk "!" (.mk "a" .null .null) .null) wI2 = some s ∧
        s ⊆ all_docs wI2 :=
  ⟨by decide, claim_c9 wI2 (.mk "!" (.mk "a" .null .null) .null) (by decide)⟩

/-- Counterexample for C10: the example the claim quotes, `"a (b"`, does not
return normally — the leftover `' '` operator is applied with one operand and
the parse raises IndexError, modelled as `none`. -/
theorem claim_c10_counterexample : parse_query "a (b" = none := rfl

/-- Claim C10 as amended: for the unmatched-parenthesis query `"a(b"`,
`parse_query` returns normally with a root node whose value is `'('` (the
end-of-input loop applies the leftover `'('` as a binary operator), and
`evaluate_tree` on that node falls through every case and returns Python
`None` (modelled as `none`) on every index: the malformed input is neither
rejected nor given set semantics. -/
theorem claim_c10_amended (I : Index) :
    parse_query "a(b" =
        some (.mk "(" (.mk "a" .null .null) (.mk "b" .null .null)) ∧
      evaluate_tree (.mk "(" (.mk "a" .null .null) (.mk "b" .null .null)) I =
        none :=
  ⟨rfl, rfl⟩

end BoolSearch
